import Mathlib

/-!
# Verification of the scene-based video compositing engine

Shallow embedding of `src/services/audioService.ts` (the synced-mode
compiler `compileScenesToVideo`) and `src/services/videoService.ts`-style
simple mode (`compileImagesToVideo`), from the repository
`Text-Story-to-Reel`.

Conventions of the embedding:
* JavaScript numbers that may be `NaN` are modelled as `Option ℚ`
  (`none` = NaN, `some q` a finite value).  All duration arithmetic in
  the compiler flows through this type.
* The filesystem and the external `ffprobe` tool are modelled by an
  environment `Env` of pure functions (existence checks on full path
  strings, and a probe outcome per audio path).  Output-directory
  creation (`ensureVideoOutputDir`) is assumed to succeed, as it is
  orthogonal to every property below.
* Filter-graph tags such as `"v0"`, `"a1"`, `"img2"`, `"vt1"`, `"outa"`
  and the input-stream labels `"0:v"`, `"1:a"` are modelled by the
  inductive type `Tag`; the string templates of the source are injective
  renderings of these constructors.
-/

namespace StoryReel

/-- A JavaScript number that may be NaN: `none` is NaN. -/
abbrev JsNum := Option ℚ

/-- JS addition: NaN propagates. -/
def jadd : JsNum → JsNum → JsNum
  | some a, some b => some (a + b)
  | _, _ => none

/-- JS subtraction: NaN propagates. -/
def jsub : JsNum → JsNum → JsNum
  | some a, some b => some (a - b)
  | _, _ => none

/-- Outcome of the external `ffprobe` call on one audio file:
`err` models a thrown error, `ok d` a successful call whose first
stream's `duration` field is `d` (`none` = field absent, ffprobe
reports durations as strings). -/
inductive ProbeOutcome where
  | err : ProbeOutcome
  | ok (duration : Option String) : ProbeOutcome
deriving DecidableEq

/-- Value of a list of decimal digit characters. -/
def digitsToNat (cs : List Char) : ℕ :=
  cs.foldl (fun acc c => 10 * acc + (c.toNat - 48)) 0

/-- Character scan of JavaScript `parseFloat` on the decimal fragment it
is used on here: optional leading whitespace, optional sign, digits,
optional fraction.  Returns `none` when no digit is found, otherwise
`some (negative, integer value, fraction value, fraction length)`.
(Exponent notation and `Infinity` do not occur in ffprobe duration
strings.) -/
def parseFloatScan (s : String) : Option (Bool × ℕ × ℕ × ℕ) :=
  let cs := s.toList.dropWhile Char.isWhitespace
  let sgn : Bool × List Char :=
    match cs with
    | '-' :: rest => (true, rest)
    | '+' :: rest => (false, rest)
    | _ => (false, cs)
  let intPart := sgn.2.takeWhile Char.isDigit
  let afterInt := sgn.2.dropWhile Char.isDigit
  let fracPart :=
    match afterInt with
    | '.' :: rest => rest.takeWhile Char.isDigit
    | _ => []
  if intPart.isEmpty && fracPart.isEmpty then none
  else some (sgn.1, digitsToNat intPart, digitsToNat fracPart, fracPart.length)

/-- JavaScript `parseFloat`, assembled from the scan: NaN (`none`) when
no digit is found. -/
def jsParseFloat (s : String) : JsNum :=
  match parseFloatScan s with
  | none => none
  | some (neg, ip, fp, fl) =>
    some ((if neg then -1 else 1) * ((ip : ℚ) + (fp : ℚ) / 10 ^ fl))

/-- JS truthiness of the optional duration string:
`undefined` and the empty string are falsy. -/
def durationTruthy : Option String → Bool
  | none => false
  | some s => !s.isEmpty

/-- `getAudioDuration` of `audioService.ts` (lines 322-339): on a thrown
probe error return 1; when the duration field is falsy (absent or empty
string) return 1; otherwise return `parseFloat` of the field. -/
def getAudioDuration : ProbeOutcome → JsNum
  | ProbeOutcome.err => some 1
  | ProbeOutcome.ok d => if durationTruthy d then jsParseFloat (d.getD "") else some 1

/-- Base directory for images (`path.join(__dirname, "../../outputs")`). -/
def IMAGE_DIR : String := "outputs"

/-- Base directory for audio. -/
def AUDIO_DIR : String := "outputs/audio"

/-- Base directory for videos. -/
def VIDEO_DIR : String := "outputs/videos"

/-- `path.join` for the simple directory/file case used by the source. -/
def pathJoin (dir file : String) : String := dir ++ "/" ++ file

/-- The ambient environment: existence of files, and the probe result
for each audio path. -/
structure Env where
  imageOk : String → Bool
  audioOk : String → Bool
  probe : String → ProbeOutcome

/-- One scene of the request (`SceneData` in the source). -/
structure SceneData where
  imageFilename : String
  audioFilename : String
deriving DecidableEq

/-- A validated scene with resolved paths, probed duration and original
index, as built inside `compileScenesToVideo` (lines 411-429). -/
structure SceneDetail extends SceneData where
  imagePath : String
  audioPath : String
  audioDuration : JsNum
  index : ℕ
deriving DecidableEq

/-- The body of the `scenes.map(async (scene, index) => ...)` callback:
both artifacts must resolve, the audio is probed, and the original index
is recorded; a missing artifact yields `null` (here `none`). -/
def probeScene (env : Env) (scene : SceneData) (index : ℕ) : Option SceneDetail :=
  let imagePath := pathJoin IMAGE_DIR scene.imageFilename
  let audioPath := pathJoin AUDIO_DIR scene.audioFilename
  if env.imageOk imagePath && env.audioOk audioPath then
    some { scene with
      imagePath := imagePath
      audioPath := audioPath
      audioDuration := getAudioDuration (env.probe audioPath)
      index := index }
  else
    none

/-- `Promise.all(scenes.map(...))`: the result array is positional, so
each entry is the probe of the scene at that position. -/
def sceneDetails (env : Env) (scenes : List SceneData) : List (Option SceneDetail) :=
  scenes.enum.map (fun p => probeScene env p.2 p.1)

/-- `sceneDetails.filter(Boolean)` (line 431). -/
def validScenes (env : Env) (scenes : List SceneData) : List SceneDetail :=
  (sceneDetails env scenes).filterMap id

/-- Filter-graph stream tags.  `vstream i`/`astream i` render as
`"i:v"`/`"i:a"` (input-stream labels); the others render as
`"img i"`, `"v i"`, `"a i"`, `"vt i"`, `"outa"`. -/
inductive Tag where
  | vstream (i : ℕ)
  | astream (i : ℕ)
  | img (i : ℕ)
  | v (i : ℕ)
  | a (i : ℕ)
  | outa
  | vt (i : ℕ)
deriving DecidableEq

/-- The parametrised operation of one filter-graph node, abstracting the
string templates pushed onto `complexFilter` in lines 460-489. -/
inductive NodeOp where
  | scalePadLoop (fps : ℕ)
  | trim (duration : JsNum)
  | asetpts
  | concatAudio (n : ℕ)
  | xfade (duration offset : JsNum)
deriving DecidableEq

/-- One entry of the `complexFilter` array: consumed tags, operation,
produced tag. -/
structure FilterNode where
  inputs : List Tag
  op : NodeOp
  output : Tag
deriving DecidableEq

/-- The three nodes pushed for the scene at position `i` among the valid
scenes (lines 460-470): scale/pad/loop from stream `2i:v` to `img i`,
trim to the audio duration from `img i` to `v i`, and `asetpts` from
stream `(2i+1):a` to `a i`. -/
def sceneFilterNodes (fps : ℕ) (i : ℕ) (d : JsNum) : List FilterNode :=
  [ { inputs := [Tag.vstream (i * 2)], op := NodeOp.scalePadLoop fps, output := Tag.img i },
    { inputs := [Tag.img i], op := NodeOp.trim d, output := Tag.v i },
    { inputs := [Tag.astream (i * 2 + 1)], op := NodeOp.asetpts, output := Tag.a i } ]

/-- The crossfade loop of lines 482-491, from scene index `i` on:
`prevD` is the duration of scene `i-1`, `cur` the current chain tag.
Each iteration pushes an `xfade` node at offset `prevD - t` and the
chain tag becomes `vt i`.  Returns the final chain tag and the nodes. -/
def xfadeAux (t : JsNum) : JsNum → Tag → ℕ → List JsNum → Tag × List FilterNode
  | _, cur, _, [] => (cur, [])
  | prevD, cur, i, d :: rest =>
    let node : FilterNode :=
      { inputs := [cur, Tag.v i], op := NodeOp.xfade t (jsub prevD t), output := Tag.vt i }
    let r := xfadeAux t d (Tag.vt i) (i + 1) rest
    (r.1, node :: r.2)

/-- The whole crossfade chain: `currentInput` starts at `"v0"` and the
loop runs for `i = 1 .. n-1`. -/
def xfadeChain (t : JsNum) : List JsNum → Tag × List FilterNode
  | [] => (Tag.v 0, [])
  | d :: rest => xfadeAux t d (Tag.v 0) 1 rest

/-- The full `complexFilter` array built from the valid scenes'
durations (lines 450-494): per-scene nodes in order, then the audio
concat node, then the crossfade chain; also the final video tag
(`lastVideoOutputTag`). -/
def buildComplexFilter (fps : ℕ) (t : JsNum) (ds : List JsNum) : List FilterNode × Tag :=
  let perScene := ds.enum.flatMap (fun p => sceneFilterNodes fps p.1 p.2)
  let concatNode : FilterNode :=
    { inputs := (List.range ds.length).map Tag.a,
      op := NodeOp.concatAudio ds.length,
      output := Tag.outa }
  let chain := xfadeChain t ds
  (perScene ++ [concatNode] ++ chain.2, chain.1)

/-- The offsets carried by the emitted crossfade pairings, in emission
order. -/
def emittedOffsets (t : JsNum) (ds : List JsNum) : List JsNum :=
  (xfadeChain t ds).2.filterMap (fun nd =>
    match nd.op with
    | NodeOp.xfade _ o => some o
    | _ => none)

/-- Errors of the synced-mode compiler that the claims talk about. -/
inductive CompileError where
  | noScenesProvided
  | noValidScenes
deriving DecidableEq

/-- The renderer invocation assembled by `compileScenesToVideo`:
registered inputs in order, the filter nodes, the final video tag and
the surviving scene details. -/
structure CompiledJob where
  inputs : List String
  filterNodes : List FilterNode
  lastVideoTag : Tag
  validDetails : List SceneDetail
deriving DecidableEq

/-- `compileScenesToVideo` (lines 383-523) up to the renderer
invocation: empty-input check, validation/probing, input registration
(image then audio per valid scene, in order), and filter-graph
construction. -/
def compileScenesToVideo (env : Env) (scenes : List SceneData)
    (transitionDuration : JsNum) (outputFps : ℕ) :
    Except CompileError CompiledJob :=
  if scenes.isEmpty then
    Except.error CompileError.noScenesProvided
  else
    let valid := validScenes env scenes
    if valid.isEmpty then
      Except.error CompileError.noValidScenes
    else
      let ds := valid.map (fun s => s.audioDuration)
      let built := buildComplexFilter outputFps transitionDuration ds
      Except.ok
        { inputs := valid.flatMap (fun s => [s.imagePath, s.audioPath])
          filterNodes := built.1
          lastVideoTag := built.2
          validDetails := valid }

/-- Filter nodes of a compile result (empty on error). -/
def compiledNodes (r : Except CompileError CompiledJob) : List FilterNode :=
  match r with
  | Except.ok j => j.filterNodes
  | Except.error _ => []

/-- Valid scene details of a compile result (empty on error). -/
def compiledValid (r : Except CompileError CompiledJob) : List SceneDetail :=
  match r with
  | Except.ok j => j.validDetails
  | Except.error _ => []

/-- Registered renderer inputs of a compile result (empty on error). -/
def compiledInputs (r : Except CompileError CompiledJob) : List String :=
  match r with
  | Except.ok j => j.inputs
  | Except.error _ => []

/-! ## Simple (equal-duration concat) mode, `compileImagesToVideo` -/

/-- One line of the temporary ffmpeg concat list file: either a
`file '<path>'` line or a `duration <seconds>` line. -/
inductive ListEntry where
  | file (path : String)
  | duration (seconds : ℚ)
deriving DecidableEq

/-- Errors of the simple-mode compiler relevant here. -/
inductive SimpleError where
  | noImagesProvided
  | noImagesFound
deriving DecidableEq

/-- The image-existence loop of lines 228-237: resolve each filename
against `IMAGE_DIR` and keep, in order, the full paths that exist. -/
def validImagePaths (env : Env) (imageFilenames : List String) : List String :=
  (imageFilenames.map (pathJoin IMAGE_DIR)).filter env.imageOk

/-- The concat list content of lines 251-257: per valid image, a `file`
line (the `safePath` replace of `/` by `/` is the identity) followed by
a `duration` line with value `1 / frameRate`. -/
def listFileContent (paths : List String) (frameRate : ℚ) : List ListEntry :=
  paths.flatMap (fun p => [ListEntry.file p, ListEntry.duration (1 / frameRate)])

/-- The renderer invocation assembled by `compileImagesToVideo`. -/
structure SimpleJob where
  listFileEntries : List ListEntry
  inputOptions : List String
  outputOptions : List String
deriving DecidableEq

/-- `compileImagesToVideo` (lines 207-272) up to spawning the renderer:
empty-input check, existence filtering, list-file content, and the fixed
input/output options (output frame rate is the constant `"30"`). -/
def compileImagesToVideo (env : Env) (imageFilenames : List String)
    (frameRate : ℚ) : Except SimpleError SimpleJob :=
  if imageFilenames.isEmpty then
    Except.error SimpleError.noImagesProvided
  else
    let valid := validImagePaths env imageFilenames
    if valid.isEmpty then
      Except.error SimpleError.noImagesFound
    else
      Except.ok
        { listFileEntries := listFileContent valid frameRate
          inputOptions := ["-f", "concat", "-safe", "0"]
          outputOptions := ["-pix_fmt", "yuv420p", "-c:v", "libx264", "-r", "30"] }

/-- List-file entries of a simple compile result (empty on error). -/
def simpleEntries (r : Except SimpleError SimpleJob) : List ListEntry :=
  match r with
  | Except.ok j => j.listFileEntries
  | Except.error _ => []

/-- Paths of the `file` lines of a list-file, in order. -/
def fileEntryPaths (entries : List ListEntry) : List String :=
  entries.filterMap (fun e =>
    match e with
    | ListEntry.file p => some p
    | ListEntry.duration _ => none)

/-! ## Simple-mode execution driver (render outcome and cleanup) -/

/-- Outcome of the external renderer run. -/
inductive RenderOutcome where
  | success
  | failure (msg : String)
deriving DecidableEq

deriving instance DecidableEq for Except

/-- What the simple-mode driver produced: which temp files it tried to
delete, the warnings it logged, and the resolved/rejected result. -/
structure DriverOutcome where
  deletionsAttempted : List String
  warnings : List String
  result : Except String (String × String)
deriving DecidableEq

/-- The `end`/`error` handlers of lines 277-302: in both branches the
temp list file is unlinked inside a `try`/`catch` whose failure is only
logged; then the promise resolves with the output path/filename, or
rejects with `"ffmpeg failed: " ++` the renderer's message. -/
def runSimpleDriver (listFileName outputPath outputFilename : String)
    (render : RenderOutcome) (unlinkOk : Bool) : DriverOutcome :=
  match render with
  | RenderOutcome.success =>
      { deletionsAttempted := [listFileName]
        warnings :=
          if unlinkOk then []
          else ["Could not delete temp file " ++ listFileName]
        result := Except.ok (outputPath, outputFilename) }
  | RenderOutcome.failure msg =>
      { deletionsAttempted := [listFileName]
        warnings :=
          if unlinkOk then []
          else ["Could not delete temp file " ++ listFileName ++ " after error"]
        result := Except.error ("ffmpeg failed: " ++ msg) }

/-- Is this tag an input-stream label (`"i:v"` / `"i:a"`) rather than a
tag produced by a filter node? -/
def isStreamTag : Tag → Bool
  | Tag.vstream _ => true
  | Tag.astream _ => true
  | _ => false

/-- Producers-before-consumers checker: walking the node list in emitted
order with the set of already-produced tags, every consumed tag must be
an input-stream label or already defined. -/
def checkNodes (defined : List Tag) : List FilterNode → Bool
  | [] => true
  | nd :: rest =>
    nd.inputs.all (fun tg => isStreamTag tg || decide (tg ∈ defined)) &&
      checkNodes (nd.output :: defined) rest

/-- The tags produced by scene `i`'s three filter nodes, most recent
first. -/
def blockTags (i : ℕ) : List Tag := [Tag.a i, Tag.v i, Tag.img i]

/-- Tags produced by the per-scene blocks for scenes `k, k+1, ...`,
accumulated the way `checkNodes` pushes them. -/
def accTags (k : ℕ) : List JsNum → List Tag
  | [] => []
  | _ :: rest => accTags (k + 1) rest ++ blockTags k

/-- Indices of the trimmed per-scene video tags (`v i`) produced by a
node list, in emitted order. -/
def videoProducerIndices (nodes : List FilterNode) : List ℕ :=
  nodes.filterMap (fun nd =>
    match nd.output with
    | Tag.v i => some i
    | _ => none)

/-- Indices of the re-timestamped per-scene audio tags (`a i`) produced
by a node list, in emitted order. -/
def audioProducerIndices (nodes : List FilterNode) : List ℕ :=
  nodes.filterMap (fun nd =>
    match nd.output with
    | Tag.a i => some i
    | _ => none)

/-- A node producing scene `i`'s image tag must consume exactly input
stream `2i`'s video, and a node producing scene `i`'s audio tag exactly
input stream `2i+1`'s audio. -/
def streamRefsAgreeNode (nd : FilterNode) : Bool :=
  match nd.output with
  | Tag.img i => decide (nd.inputs = [Tag.vstream (i * 2)])
  | Tag.a i => decide (nd.inputs = [Tag.astream (i * 2 + 1)])
  | _ => true

/-- All nodes' stream references agree with the interleaved input
registration order. -/
def streamRefsAgree (nodes : List FilterNode) : Bool :=
  nodes.all streamRefsAgreeNode

/-- An environment in which every artifact resolves and every probe
reports the duration string `"2"`. -/
def envAll : Env :=
  { imageOk := fun _ => true
    audioOk := fun _ => true
    probe := fun _ => ProbeOutcome.ok (some "2") }

/-- A concrete scene used by witnesses. -/
def sceneA : SceneData := { imageFilename := "s1.png", audioFilename := "s1.mp3" }

/-- The chain tag consumed by the `i`-th crossfade pairing
(`currentInput` at the start of loop iteration `i`): `v0` for the first
pairing, `vt (i-1)` afterwards. -/
def chainTag (i : ℕ) : Tag :=
  if i ≤ 1 then Tag.v 0 else Tag.vt (i - 1)

/-- The nominal duration of the pairwise-chained output, as the claim
defines it: `D_1 = d_0` and, for each emitted pairing, `D = offset + d`
(the `xfade` output length is the second input's start offset plus its
duration); the value after the last pairing is returned. -/
def chainNominal (ds : List JsNum) (offsets : List JsNum) : JsNum :=
  match ds with
  | [] => none
  | d0 :: rest => (offsets.zip rest).foldl (fun _ p => jadd p.1 p.2) d0

lemma chainTag_succ {i : ℕ} (hi : 1 ≤ i) : chainTag (i + 1) = Tag.vt i := by
  unfold chainTag
  have h : ¬ (i + 1 ≤ 1) := by omega
  simp [h]

lemma xfadeAux_nodes (t : JsNum) :
    ∀ (rest : List JsNum) (prevD : JsNum) (i : ℕ), 1 ≤ i →
      (xfadeAux t prevD (chainTag i) i rest).2 =
        (List.range rest.length).map (fun j =>
          ({ inputs := [chainTag (i + j), Tag.v (i + j)]
             op := NodeOp.xfade t (jsub ((prevD :: rest).getD j none) t)
             output := Tag.vt (i + j) } : FilterNode)) := by
  intro rest
  induction rest with
  | nil => intro prevD i hi; simp [xfadeAux]
  | cons d rest ih =>
    intro prevD i hi
    have hct : Tag.vt i = chainTag (i + 1) := (chainTag_succ hi).symm
    simp only [xfadeAux, hct, ih d (i + 1) (by omega), List.length_cons,
      List.range_succ_eq_map, List.map_cons, List.map_map]
    rw [List.cons_eq_cons]
    refine ⟨by simp [hct], ?_⟩
    apply List.map_congr_left
    intro j _
    have h1 : i + 1 + j = i + Nat.succ j := by omega
    simp only [Function.comp_apply, List.getD_cons_succ, h1]

lemma xfadeChain_nodes (t : JsNum) (ds : List JsNum) :
    (xfadeChain t ds).2 =
      (List.range (ds.length - 1)).map (fun j =>
        ({ inputs := [chainTag (j + 1), Tag.v (j + 1)]
           op := NodeOp.xfade t (jsub (ds.getD j none) t)
           output := Tag.vt (j + 1) } : FilterNode)) := by
  cases ds with
  | nil => simp [xfadeChain]
  | cons d rest =>
    have h0 : Tag.v 0 = chainTag 1 := by simp [chainTag]
    simp only [xfadeChain, h0, xfadeAux_nodes t rest d 1 (by omega),
      List.length_cons, Nat.add_sub_cancel]
    apply List.map_congr_left
    intro j _
    simp [Nat.add_comm]

lemma xfadeAux_offsets (t : JsNum) :
    ∀ (rest : List JsNum) (prevD : JsNum) (cur : Tag) (i : ℕ),
      (xfadeAux t prevD cur i rest).2.filterMap (fun nd =>
          match nd.op with
          | NodeOp.xfade _ o => some o
          | _ => none) =
        (prevD :: rest).dropLast.map (fun d => jsub d t) := by
  intro rest
  induction rest with
  | nil => intro prevD cur i; simp [xfadeAux]
  | cons d rest ih =>
    intro prevD cur i
    simp only [xfadeAux, List.filterMap_cons, ih d (Tag.vt i) (i + 1)]
    simp [List.dropLast]

lemma emittedOffsets_eq (t : JsNum) (ds : List JsNum) :
    emittedOffsets t ds = ds.dropLast.map (fun d => jsub d t) := by
  cases ds with
  | nil => simp [emittedOffsets, xfadeChain]
  | cons d rest =>
    unfold emittedOffsets xfadeChain
    exact xfadeAux_offsets t rest d (Tag.v 0) 1

lemma getD_map_some (ds : List ℚ) (j : ℕ) (hj : j < ds.length) :
    (ds.map some).getD j none = some (ds.getD j 0) := by
  rw [List.getD_eq_getElem _ _ (by simpa using hj), List.getD_eq_getElem _ _ hj,
    List.getElem_map]

/-! ## Claim theorems -/

/-- C1: for scenes with audio durations `d_0 .. d_{n-1}` and transition
duration `t`, the `i`-th emitted crossfade pairing (1-indexed, here `j+1`
with `j` 0-indexed) blends the previous chain output (`v0`, then
`vt (i-1)`) with scene `i`'s video tag `v i` at offset exactly
`d_{i-1} - t` — the single preceding scene's own duration minus `t`, not
a cumulative sum; in particular for durations `[2, 3, 1.5]` and
`t = 0.5` the two pairings carry offsets `1.5` and `2.5`. -/
theorem crossfade_offsets_literal_rule :
    (∀ (ds : List ℚ) (t : ℚ),
      (xfadeChain (some t) (ds.map some)).2 =
        (List.range (ds.length - 1)).map (fun j =>
          ({ inputs := [chainTag (j + 1), Tag.v (j + 1)]
             op := NodeOp.xfade (some t) (some (ds.getD j 0 - t))
             output := Tag.vt (j + 1) } : FilterNode))) ∧
    emittedOffsets (some (1/2 : ℚ)) [some 2, some 3, some (3/2)] =
      [some (3/2), some (5/2)] := by
  constructor
  · intro ds t
    rw [xfadeChain_nodes, List.length_map]
    apply List.map_congr_left
    intro j hj
    have hj' : j < ds.length := by
      have := List.mem_range.mp hj
      omega
    rw [getD_map_some ds j hj']
    simp [jsub]
  · norm_num [emittedOffsets, xfadeChain, xfadeAux, jsub, List.filterMap]

lemma chain_fold_eval :
    ∀ (rest : List ℚ) (d0 t : ℚ), rest ≠ [] →
      ((((d0 :: rest).map some).dropLast.map (fun d => jsub d (some t))).zip
          (rest.map some)).foldl (fun _ p => jadd p.1 p.2) (some d0) =
        some ((d0 :: rest).getD ((d0 :: rest).length - 2) 0 +
          (d0 :: rest).getD ((d0 :: rest).length - 1) 0 - t) := by
  intro rest
  induction rest with
  | nil => intro d0 t h; exact absurd rfl h
  | cons d1 rest ih =>
    intro d0 t _
    cases rest with
    | nil =>
      simp [jsub, jadd]
      ring
    | cons d2 rest' =>
      have step :
          ((((d0 :: d1 :: d2 :: rest').map some).dropLast.map
              (fun d => jsub d (some t))).zip ((d1 :: d2 :: rest').map some)).foldl
            (fun _ p => jadd p.1 p.2) (some d0) =
          ((((d1 :: d2 :: rest').map some).dropLast.map
              (fun d => jsub d (some t))).zip ((d2 :: rest').map some)).foldl
            (fun _ p => jadd p.1 p.2) (some d1) := by
        simp only [List.map_cons, List.dropLast_cons₂, List.zip_cons_cons,
          List.foldl_cons]
      rw [step, ih d1 t (by simp)]
      simp only [List.length_cons, List.getD_cons_succ]
      have e1 : rest'.length + 1 + 1 - 2 = rest'.length := by omega
      have e2 : rest'.length + 1 + 1 + 1 - 2 = rest'.length + 1 := by omega
      have e3 : rest'.length + 1 + 1 - 1 = rest'.length + 1 := by omega
      have e4 : rest'.length + 1 + 1 + 1 - 1 = rest'.length + 1 + 1 := by omega
      rw [e1, e2, e3, e4]
      simp [List.getD_cons_succ]
      rw [List.getElem?_eq_getElem
        (by simp only [List.length_cons]; omega :
          rest'.length < (d1 :: d2 :: rest').length)]
      rfl

/-- C2, amended: under the emitted per-scene offsets, the nominal
duration of the pairwise chain for `n ≥ 2` scenes is
`d_{n-2} + d_{n-1} - t` (only the last pairing's offset plus the last
scene's duration), which coincides with `sum(d) - (n-1)*t` exactly when
the first `n-2` durations sum to `(n-2)*t` (in particular for `n = 2`),
and for `n = 1` it is `d_0`. -/
theorem nominal_duration_literal_chain :
    ∀ (ds : List ℚ) (t : ℚ), 2 ≤ ds.length →
      chainNominal (ds.map some) (emittedOffsets (some t) (ds.map some)) =
        some (ds.getD (ds.length - 2) 0 + ds.getD (ds.length - 1) 0 - t) := by
  intro ds t h
  cases ds with
  | nil => simp at h
  | cons d0 rest =>
    have hrest : rest ≠ [] := by
      intro hr
      rw [hr] at h
      simp at h
    rw [emittedOffsets_eq]
    simp only [chainNominal, List.map_cons]
    have := chain_fold_eval rest d0 t hrest
    simpa using this

/-- C2, witness for the amended theorem at durations `[2, 3, 1.5]` and
`t = 0.5`: the chained nominal duration is `3 + 1.5 - 0.5 = 4`. -/
theorem nominal_duration_literal_chain_witness :
    chainNominal ([(2 : ℚ), 3, 3/2].map some)
        (emittedOffsets (some (1/2)) ([(2 : ℚ), 3, 3/2].map some)) =
      some ([(2 : ℚ), 3, 3/2].getD 1 0 + [(2 : ℚ), 3, 3/2].getD 2 0 - 1/2) :=
  nominal_duration_literal_chain [2, 3, 3/2] (1/2) (by norm_num)

/-- C2, counterexample: for 3 scenes with durations `[2, 3, 1.5]` and
`t = 0.5`, the nominal duration of the pairwise chain under the emitted
(per-scene) offsets is `2.5 + 1.5 = 4`, while
`sum(d) - (n-1)*t = 6.5 - 1 = 5.5`; the claimed equality fails. -/
theorem chain_nominal_duration_counterexample :
    chainNominal [some 2, some 3, some (3/2)]
        (emittedOffsets (some (1/2)) [some 2, some 3, some (3/2)]) = some 4 ∧
    (2 + 3 + 3/2 - (3 - 1) * (1/2) : ℚ) = 11/2 ∧
    chainNominal [some 2, some 3, some (3/2)]
        (emittedOffsets (some (1/2)) [some 2, some 3, some (3/2)]) ≠
      some (2 + 3 + 3/2 - (3 - 1) * (1/2) : ℚ) := by
  refine ⟨?_, by norm_num, ?_⟩ <;>
    norm_num [chainNominal, emittedOffsets, xfadeChain, xfadeAux, jsub, jadd,
      List.filterMap]

/-- C4: `NoScenesProvided` is raised iff the input scene list is empty;
`NoValidScenes` iff the list is non-empty but every scene fails artifact
resolution; when at least one scene resolves, the compile assembles a
job and raises neither error. -/
theorem compile_scene_errors_iff :
    ∀ (env : Env) (scenes : List SceneData) (t : JsNum) (fps : ℕ),
      (compileScenesToVideo env scenes t fps =
          Except.error CompileError.noScenesProvided ↔ scenes = []) ∧
      (compileScenesToVideo env scenes t fps =
          Except.error CompileError.noValidScenes ↔
        (scenes ≠ [] ∧ validScenes env scenes = [])) ∧
      (validScenes env scenes ≠ [] →
        ∃ job, compileScenesToVideo env scenes t fps = Except.ok job) := by
  intro env scenes t fps
  by_cases h1 : scenes.isEmpty = true
  · have hs : scenes = [] := List.isEmpty_iff.mp h1
    subst hs
    simp [compileScenesToVideo, validScenes, sceneDetails]
  · have hs : scenes ≠ [] := by
      intro hh
      subst hh
      simp at h1
    by_cases h2 : (validScenes env scenes).isEmpty = true
    · have hv : validScenes env scenes = [] := List.isEmpty_iff.mp h2
      simp [compileScenesToVideo, h1, h2, hs, hv]
    · have hv : validScenes env scenes ≠ [] := by
        intro hh
        rw [hh] at h2
        simp at h2
      simp [compileScenesToVideo, h1, h2, hs, hv]

/-- C4, witness: the empty list raises `NoScenesProvided`; a singleton
list whose artifacts resolve compiles to a job. -/
theorem compile_scene_errors_iff_witness :
    compileScenesToVideo envAll [] (some (1/2)) 30 =
        Except.error CompileError.noScenesProvided ∧
    ∃ job, compileScenesToVideo envAll [sceneA] (some (1/2)) 30 = Except.ok job :=
  ⟨(compile_scene_errors_iff envAll [] (some (1/2)) 30).1.mpr rfl,
   (compile_scene_errors_iff envAll [sceneA] (some (1/2)) 30).2.2 (by decide)⟩

/-- C5: in simple mode, deletion of the temporary list file is attempted
after both renderer outcomes; the result is independent of whether the
deletion succeeds; success still resolves with the output path/filename
and a renderer error still rejects with the renderer's diagnostic
text. -/
theorem simple_driver_cleanup_nonmasking :
    ∀ (lfn outPath outName : String) (render : RenderOutcome) (u : Bool),
      (runSimpleDriver lfn outPath outName render u).deletionsAttempted = [lfn] ∧
      (runSimpleDriver lfn outPath outName render u).result =
        (runSimpleDriver lfn outPath outName render true).result ∧
      (render = RenderOutcome.success →
        (runSimpleDriver lfn outPath outName render u).result =
          Except.ok (outPath, outName)) ∧
      (∀ msg, render = RenderOutcome.failure msg →
        (runSimpleDriver lfn outPath outName render u).result =
          Except.error ("ffmpeg failed: " ++ msg)) := by
  intro lfn outPath outName render u
  cases render <;> simp [runSimpleDriver]

/-- C5, witness: a failed render with a failed deletion still rejects
with the renderer's message. -/
theorem simple_driver_cleanup_nonmasking_witness :
    (runSimpleDriver "tmp_list.txt" "out.mp4" "out"
        (RenderOutcome.failure "boom") false).result =
      Except.error ("ffmpeg failed: " ++ "boom") :=
  (simple_driver_cleanup_nonmasking "tmp_list.txt" "out.mp4" "out"
    (RenderOutcome.failure "boom") false).2.2.2 "boom" rfl

lemma checkNodes_perScene (fps : ℕ) :
    ∀ (ds : List JsNum) (k : ℕ) (defined : List Tag) (rest : List FilterNode),
      checkNodes defined
          (((ds.enumFrom k).flatMap (fun p => sceneFilterNodes fps p.1 p.2)) ++ rest) =
        checkNodes (accTags k ds ++ defined) rest := by
  intro ds
  induction ds with
  | nil => intro k defined rest; simp [accTags, List.enumFrom]
  | cons d ds ih =>
    intro k defined rest
    have hblock : ∀ (defined' : List Tag) (rest' : List FilterNode),
        checkNodes defined' (sceneFilterNodes fps k d ++ rest') =
          checkNodes (Tag.a k :: Tag.v k :: Tag.img k :: defined') rest' := by
      intro defined' rest'
      simp [sceneFilterNodes, checkNodes, isStreamTag]
    simp only [List.enumFrom, List.flatMap_cons, List.append_assoc]
    rw [hblock]
    rw [ih (k + 1) (Tag.a k :: Tag.v k :: Tag.img k :: defined) rest]
    have hacc : accTags (k + 1) ds ++ (Tag.a k :: Tag.v k :: Tag.img k :: defined) =
        accTags k (d :: ds) ++ defined := by
      simp [accTags, blockTags, List.append_assoc]
    rw [hacc]

lemma mem_accTags :
    ∀ (ds : List JsNum) (k j : ℕ), k ≤ j → j < k + ds.length →
      Tag.a j ∈ accTags k ds ∧ Tag.v j ∈ accTags k ds := by
  intro ds
  induction ds with
  | nil =>
    intro k j h1 h2
    simp only [List.length_nil, Nat.add_zero] at h2
    omega
  | cons d ds ih =>
    intro k j h1 h2
    simp only [accTags]
    by_cases hjk : j = k
    · subst hjk
      constructor <;> simp [blockTags]
    · have h2' : j < (k + 1) + ds.length := by
        simp only [List.length_cons] at h2
        omega
      have hm := ih (k + 1) j (by omega) h2'
      exact ⟨List.mem_append.mpr (Or.inl hm.1), List.mem_append.mpr (Or.inl hm.2)⟩

lemma checkNodes_xfadeAux (t : JsNum) :
    ∀ (rest : List JsNum) (prevD : JsNum) (cur : Tag) (i : ℕ) (defined : List Tag),
      cur ∈ defined →
      (∀ j, i ≤ j → j < i + rest.length → Tag.v j ∈ defined) →
      checkNodes defined (xfadeAux t prevD cur i rest).2 = true := by
  intro rest
  induction rest with
  | nil => intro prevD cur i defined h1 h2; simp [xfadeAux, checkNodes]
  | cons d rest ih =>
    intro prevD cur i defined h1 h2
    have hv : Tag.v i ∈ defined := by
      apply h2 i le_rfl
      simp only [List.length_cons]
      omega
    have hor1 : (isStreamTag cur || decide (cur ∈ defined)) = true := by
      simp [h1]
    have hor2 : (isStreamTag (Tag.v i) || decide (Tag.v i ∈ defined)) = true := by
      simp [hv]
    simp only [xfadeAux, checkNodes, List.all_cons, List.all_nil]
    rw [hor1, hor2]
    simp only [Bool.true_and, Bool.and_true]
    apply ih
    · exact List.mem_cons_self _ _
    · intro j hj1 hj2
      have hj3 : j < i + (d :: rest).length := by
        simp only [List.length_cons]
        omega
      exact List.mem_cons_of_mem _ (h2 j (by omega) hj3)

lemma checkNodes_build (fps : ℕ) (t : JsNum) (ds : List JsNum) :
    checkNodes [] (buildComplexFilter fps t ds).1 = true := by
  have henum : ds.enum = ds.enumFrom 0 := rfl
  simp only [buildComplexFilter, henum, List.append_assoc]
  rw [checkNodes_perScene fps ds 0 []]
  simp only [List.append_nil, List.singleton_append]
  simp only [checkNodes]
  have hconcat :
      ((List.range ds.length).map Tag.a).all
          (fun tg => isStreamTag tg || decide (tg ∈ accTags 0 ds)) = true := by
    rw [List.all_eq_true]
    intro tg htg
    rcases List.mem_map.mp htg with ⟨j, hj, rfl⟩
    have hjlt : j < 0 + ds.length := by
      have := List.mem_range.mp hj
      omega
    have := (mem_accTags ds 0 j (Nat.zero_le j) hjlt).1
    simp [this]
  rw [hconcat]
  simp only [Bool.true_and]
  cases ds with
  | nil => simp [xfadeChain, checkNodes]
  | cons d rest =>
    simp only [xfadeChain]
    apply checkNodes_xfadeAux
    · have h0 : 0 < 0 + (d :: rest).length := by
        simp [List.length_cons]
      exact List.mem_cons_of_mem _ (mem_accTags (d :: rest) 0 0 le_rfl h0).2
    · intro j hj1 hj2
      have hjlt : j < 0 + (d :: rest).length := by
        simp only [List.length_cons] at hj2 ⊢
        omega
      exact List.mem_cons_of_mem _ (mem_accTags (d :: rest) 0 j (Nat.zero_le j) hjlt).2

/-- C6: in the filter-graph node list emitted by synced-mode
compilation, every tag consumed by a node was produced by a node
appearing strictly earlier in the emitted order, or is an input-stream
label (producers before consumers). -/
theorem filter_graph_producers_before_consumers :
    ∀ (env : Env) (scenes : List SceneData) (t : JsNum) (fps : ℕ),
      checkNodes [] (compiledNodes (compileScenesToVideo env scenes t fps)) = true := by
  intro env scenes t fps
  by_cases h1 : scenes.isEmpty = true
  · simp [compileScenesToVideo, h1, compiledNodes, checkNodes]
  · by_cases h2 : (validScenes env scenes).isEmpty = true
    · simp [compileScenesToVideo, h1, h2, compiledNodes, checkNodes]
    · simp [compileScenesToVideo, h1, h2, compiledNodes, checkNodes_build]

lemma xfadeAux_output_vt (t : JsNum) :
    ∀ (rest : List JsNum) (prevD : JsNum) (cur : Tag) (i : ℕ),
      ∀ nd ∈ (xfadeAux t prevD cur i rest).2, ∃ k, nd.output = Tag.vt k := by
  intro rest
  induction rest with
  | nil => intro prevD cur i nd hnd; simp [xfadeAux] at hnd
  | cons d rest ih =>
    intro prevD cur i nd hnd
    simp only [xfadeAux, List.mem_cons] at hnd
    cases hnd with
    | inl h => exact ⟨i, by rw [h]⟩
    | inr h => exact ih d (Tag.vt i) (i + 1) nd h

lemma xfadeChain_output_vt (t : JsNum) (ds : List JsNum) :
    ∀ nd ∈ (xfadeChain t ds).2, ∃ k, nd.output = Tag.vt k := by
  cases ds with
  | nil => intro nd hnd; simp [xfadeChain] at hnd
  | cons d rest => exact xfadeAux_output_vt t rest d (Tag.v 0) 1

lemma videoProducerIndices_append (a b : List FilterNode) :
    videoProducerIndices (a ++ b) = videoProducerIndices a ++ videoProducerIndices b := by
  simp [videoProducerIndices, List.filterMap_append]

lemma audioProducerIndices_append (a b : List FilterNode) :
    audioProducerIndices (a ++ b) = audioProducerIndices a ++ audioProducerIndices b := by
  simp [audioProducerIndices, List.filterMap_append]

lemma videoProducerIndices_block (fps : ℕ) (k : ℕ) (d : JsNum) :
    videoProducerIndices (sceneFilterNodes fps k d) = [k] := by
  simp [videoProducerIndices, sceneFilterNodes]

lemma audioProducerIndices_block (fps : ℕ) (k : ℕ) (d : JsNum) :
    audioProducerIndices (sceneFilterNodes fps k d) = [k] := by
  simp [audioProducerIndices, sceneFilterNodes]

lemma perScene_video_indices (fps : ℕ) :
    ∀ (ds : List JsNum) (k : ℕ),
      videoProducerIndices
          ((ds.enumFrom k).flatMap (fun p => sceneFilterNodes fps p.1 p.2)) =
        List.range' k ds.length := by
  intro ds
  induction ds with
  | nil => intro k; simp [videoProducerIndices, List.enumFrom]
  | cons d ds ih =>
    intro k
    simp only [List.enumFrom, List.flatMap_cons]
    rw [videoProducerIndices_append, videoProducerIndices_block, ih (k + 1)]
    rw [List.length_cons, List.range'_succ k ds.length 1]
    rfl

lemma perScene_audio_indices (fps : ℕ) :
    ∀ (ds : List JsNum) (k : ℕ),
      audioProducerIndices
          ((ds.enumFrom k).flatMap (fun p => sceneFilterNodes fps p.1 p.2)) =
        List.range' k ds.length := by
  intro ds
  induction ds with
  | nil => intro k; simp [audioProducerIndices, List.enumFrom]
  | cons d ds ih =>
    intro k
    simp only [List.enumFrom, List.flatMap_cons]
    rw [audioProducerIndices_append, audioProducerIndices_block, ih (k + 1)]
    rw [List.length_cons, List.range'_succ k ds.length 1]
    rfl

lemma videoProducerIndices_build (fps : ℕ) (t : JsNum) (ds : List JsNum) :
    videoProducerIndices (buildComplexFilter fps t ds).1 = List.range ds.length := by
  have henum : ds.enum = ds.enumFrom 0 := rfl
  simp only [buildComplexFilter, henum]
  rw [videoProducerIndices_append, videoProducerIndices_append,
    perScene_video_indices fps ds 0]
  have hconcat :
      videoProducerIndices
          [{ inputs := (List.range ds.length).map Tag.a,
             op := NodeOp.concatAudio ds.length, output := Tag.outa }] = [] := by
    simp [videoProducerIndices]
  have hchain : videoProducerIndices (xfadeChain t ds).2 = [] := by
    apply List.filterMap_eq_nil_iff.mpr
    intro nd hnd
    rcases xfadeChain_output_vt t ds nd hnd with ⟨k, hk⟩
    simp [hk]
  rw [hconcat, hchain, List.append_nil, List.append_nil, List.range_eq_range']

lemma audioProducerIndices_build (fps : ℕ) (t : JsNum) (ds : List JsNum) :
    audioProducerIndices (buildComplexFilter fps t ds).1 = List.range ds.length := by
  have henum : ds.enum = ds.enumFrom 0 := rfl
  simp only [buildComplexFilter, henum]
  rw [audioProducerIndices_append, audioProducerIndices_append,
    perScene_audio_indices fps ds 0]
  have hconcat :
      audioProducerIndices
          [{ inputs := (List.range ds.length).map Tag.a,
             op := NodeOp.concatAudio ds.length, output := Tag.outa }] = [] := by
    simp [audioProducerIndices]
  have hchain : audioProducerIndices (xfadeChain t ds).2 = [] := by
    apply List.filterMap_eq_nil_iff.mpr
    intro nd hnd
    rcases xfadeChain_output_vt t ds nd hnd with ⟨k, hk⟩
    simp [hk]
  rw [hconcat, hchain, List.append_nil, List.append_nil, List.range_eq_range']

lemma fileEntryPaths_content (paths : List String) (fr : ℚ) :
    fileEntryPaths (listFileContent paths fr) = paths := by
  induction paths with
  | nil => simp [listFileContent, fileEntryPaths]
  | cons p paths ih =>
    simp only [listFileContent, List.flatMap_cons, fileEntryPaths,
      List.filterMap_append, one_div] at ih ⊢
    simp [ih]

/-- C7: a compiled synced-mode job has exactly one trimmed video
producer (`v i`) and one re-timestamped audio producer (`a i`) per valid
scene, in original order (`0, 1, ..., n-1`); a compiled simple-mode job
has exactly one `file` entry per valid image, in original order. -/
theorem producer_entries_count_order :
    ∀ (env : Env) (scenes : List SceneData) (t : JsNum) (fps : ℕ)
      (env2 : Env) (names : List String) (fr : ℚ),
      videoProducerIndices (compiledNodes (compileScenesToVideo env scenes t fps)) =
        List.range (compiledValid (compileScenesToVideo env scenes t fps)).length ∧
      audioProducerIndices (compiledNodes (compileScenesToVideo env scenes t fps)) =
        List.range (compiledValid (compileScenesToVideo env scenes t fps)).length ∧
      fileEntryPaths (simpleEntries (compileImagesToVideo env2 names fr)) =
        validImagePaths env2 names := by
  intro env scenes t fps env2 names fr
  refine ⟨?_, ?_, ?_⟩
  · by_cases h1 : scenes.isEmpty = true
    · simp [compileScenesToVideo, h1, compiledNodes, compiledValid,
        videoProducerIndices]
    · by_cases h2 : (validScenes env scenes).isEmpty = true
      · simp [compileScenesToVideo, h1, h2, compiledNodes, compiledValid,
          videoProducerIndices]
      · simp [compileScenesToVideo, h1, h2, compiledNodes, compiledValid,
          videoProducerIndices_build]
  · by_cases h1 : scenes.isEmpty = true
    · simp [compileScenesToVideo, h1, compiledNodes, compiledValid,
        audioProducerIndices]
    · by_cases h2 : (validScenes env scenes).isEmpty = true
      · simp [compileScenesToVideo, h1, h2, compiledNodes, compiledValid,
          audioProducerIndices]
      · simp [compileScenesToVideo, h1, h2, compiledNodes, compiledValid,
          audioProducerIndices_build]
  · by_cases h1 : names.isEmpty = true
    · have hn : names = [] := List.isEmpty_iff.mp h1
      subst hn
      simp [compileImagesToVideo, simpleEntries, fileEntryPaths,
        validImagePaths]
    · by_cases h2 : (validImagePaths env2 names).isEmpty = true
      · have hv : validImagePaths env2 names = [] := List.isEmpty_iff.mp h2
        simp [compileImagesToVideo, h1, h2, simpleEntries, fileEntryPaths, hv]
      · simp [compileImagesToVideo, h1, h2, simpleEntries,
          fileEntryPaths_content]

lemma probeScene_eq_some {env : Env} {sc : SceneData} {k : ℕ} {det : SceneDetail}
    (h : probeScene env sc k = some det) :
    det.index = k ∧ det.toSceneData = sc ∧
      det.audioDuration =
        getAudioDuration (env.probe (pathJoin AUDIO_DIR det.audioFilename)) := by
  by_cases hc : (env.imageOk (pathJoin IMAGE_DIR sc.imageFilename) &&
      env.audioOk (pathJoin AUDIO_DIR sc.audioFilename)) = true
  · simp only [probeScene, hc, if_true] at h
    obtain rfl := Option.some.inj h
    exact ⟨rfl, rfl, rfl⟩
  · simp only [probeScene, hc, if_false] at h
    exact absurd h (by simp)

lemma validScenes_enumFrom_mem (env : Env) :
    ∀ (scenes : List SceneData) (k : ℕ) (d : SceneDetail),
      d ∈ ((scenes.enumFrom k).map (fun p => probeScene env p.2 p.1)).filterMap id →
      k ≤ d.index ∧ scenes[d.index - k]? = some d.toSceneData ∧
        d.audioDuration =
          getAudioDuration (env.probe (pathJoin AUDIO_DIR d.audioFilename)) := by
  intro scenes
  induction scenes with
  | nil => intro k d hd; simp [List.enumFrom] at hd
  | cons sc scenes ih =>
    intro k d hd
    simp only [List.enumFrom, List.map_cons] at hd
    cases hp : probeScene env sc k with
    | none =>
      rw [hp, List.filterMap_cons_none (by rfl)] at hd
      rcases ih (k + 1) d hd with ⟨h1, h2, h3⟩
      refine ⟨by omega, ?_, h3⟩
      have hidx : d.index - k = (d.index - (k + 1)) + 1 := by omega
      rw [hidx, List.getElem?_cons_succ]
      exact h2
    | some det =>
      rw [hp, List.filterMap_cons_some (by rfl)] at hd
      rcases List.mem_cons.mp hd with h | h
      · subst h
        rcases probeScene_eq_some hp with ⟨h1, h2, h3⟩
        refine ⟨by omega, ?_, h3⟩
        rw [h1, Nat.sub_self, List.getElem?_cons_zero, h2]
      · rcases ih (k + 1) d h with ⟨h1, h2, h3⟩
        refine ⟨by omega, ?_, h3⟩
        have hidx : d.index - k = (d.index - (k + 1)) + 1 := by omega
        rw [hidx, List.getElem?_cons_succ]
        exact h2

lemma validScenes_indices_sublist (env : Env) :
    ∀ (scenes : List SceneData) (k : ℕ),
      ((((scenes.enumFrom k).map (fun p => probeScene env p.2 p.1)).filterMap
          id).map (fun d => d.index)).Sublist (List.range' k scenes.length) := by
  intro scenes
  induction scenes with
  | nil => intro k; simp [List.enumFrom]
  | cons sc scenes ih =>
    intro k
    simp only [List.enumFrom, List.map_cons, List.length_cons,
      List.range'_succ k scenes.length 1]
    cases hp : probeScene env sc k with
    | none =>
      rw [List.filterMap_cons_none (by rfl)]
      exact (ih (k + 1)).cons k
    | some det =>
      rw [List.filterMap_cons_some (by rfl), List.map_cons,
        (probeScene_eq_some hp).1]
      exact (ih (k + 1)).cons₂ k

/-- C8: dropping scenes whose artifacts fail resolution never reorders
the survivors (their original indices are strictly increasing), and each
surviving scene carries the duration probed for its own audio path and
the scene data found at its own original index (association by scene
identity, as `Promise.all` returns results positionally). -/
theorem valid_scene_order_and_association :
    ∀ (env : Env) (scenes : List SceneData),
      ((validScenes env scenes).map (fun d => d.index)).Pairwise (· < ·) ∧
      (validScenes env scenes).all (fun d =>
        decide (d.audioDuration =
          getAudioDuration (env.probe (pathJoin AUDIO_DIR d.audioFilename))) &&
        decide (scenes[d.index]? = some d.toSceneData)) = true := by
  intro env scenes
  have henum : scenes.enum = scenes.enumFrom 0 := rfl
  constructor
  · have hsub := validScenes_indices_sublist env scenes 0
    have hpw := List.pairwise_lt_range' 0 scenes.length
    exact (List.Pairwise.sublist (by
      simpa [validScenes, sceneDetails, henum] using hsub) hpw)
  · rw [List.all_eq_true]
    intro d hd
    have hd' : d ∈ ((scenes.enumFrom 0).map
        (fun p => probeScene env p.2 p.1)).filterMap id := by
      simpa [validScenes, sceneDetails, henum] using hd
    rcases validScenes_enumFrom_mem env scenes 0 d hd' with ⟨_, h2, h3⟩
    rw [Nat.sub_zero] at h2
    simp [h2, h3]

/-- C9: for a non-empty list of resolvable images and a positive frame
rate, the simple-mode compile succeeds; the emitted list artifact has,
per image in order, exactly one `file` line followed by one `duration`
line whose value is `1 / frameRate`; and the renderer output options fix
the output frame rate to the constant `"30"` regardless of the input
frame rate. -/
theorem simple_mode_list_file_shape :
    ∀ (env : Env) (names : List String) (fr : ℚ),
      names ≠ [] →
      (∀ nm ∈ names, env.imageOk (pathJoin IMAGE_DIR nm) = true) →
      0 < fr →
      ∃ job, compileImagesToVideo env names fr = Except.ok job ∧
        job.listFileEntries = names.flatMap (fun nm =>
          [ListEntry.file (pathJoin IMAGE_DIR nm), ListEntry.duration (1 / fr)]) ∧
        job.outputOptions = ["-pix_fmt", "yuv420p", "-c:v", "libx264", "-r", "30"] := by
  intro env names fr h1 h2 _
  have hval : validImagePaths env names = names.map (pathJoin IMAGE_DIR) := by
    unfold validImagePaths
    apply List.filter_eq_self.mpr
    intro p hp
    rcases List.mem_map.mp hp with ⟨nm, hnm, rfl⟩
    exact h2 nm hnm
  have hne : names.isEmpty = false := by
    cases names with
    | nil => exact absurd rfl h1
    | cons nm names => rfl
  have hvne : (validImagePaths env names).isEmpty = false := by
    rw [hval]
    cases names with
    | nil => exact absurd rfl h1
    | cons nm names => rfl
  refine ⟨{ listFileEntries := listFileContent (validImagePaths env names) fr
            inputOptions := ["-f", "concat", "-safe", "0"]
            outputOptions := ["-pix_fmt", "yuv420p", "-c:v", "libx264", "-r", "30"] },
    ?_, ?_, rfl⟩
  · simp only [compileImagesToVideo, hne, Bool.false_eq_true, if_false, hvne]
  · simp only [listFileContent, hval, List.flatMap_map]

/-- C9, witness at one resolvable image and frame rate 2. -/
theorem simple_mode_list_file_shape_witness :
    ∃ job, compileImagesToVideo envAll ["a.png"] 2 = Except.ok job ∧
      job.listFileEntries = ["a.png"].flatMap (fun nm =>
        [ListEntry.file (pathJoin IMAGE_DIR nm), ListEntry.duration (1 / 2)]) ∧
      job.outputOptions = ["-pix_fmt", "yuv420p", "-c:v", "libx264", "-r", "30"] :=
  simple_mode_list_file_shape envAll ["a.png"] 2 (by decide)
    (fun nm _ => rfl) (by norm_num)

lemma flatMap_pair_getElem (l : List SceneDetail) :
    ∀ i : ℕ,
      (l.flatMap (fun d => [d.imagePath, d.audioPath]))[2 * i]? =
        (l[i]?).map (fun d => d.imagePath) ∧
      (l.flatMap (fun d => [d.imagePath, d.audioPath]))[2 * i + 1]? =
        (l[i]?).map (fun d => d.audioPath) := by
  induction l with
  | nil => intro i; simp
  | cons d l ih =>
    intro i
    cases i with
    | zero => simp [List.flatMap_cons]
    | succ j =>
      have h2 : 2 * (j + 1) = 2 * j + 1 + 1 := by omega
      simp only [List.flatMap_cons, List.cons_append, h2,
        List.getElem?_cons_succ]
      exact ih j

lemma streamRefsAgree_build (fps : ℕ) (t : JsNum) (ds : List JsNum) :
    streamRefsAgree (buildComplexFilter fps t ds).1 = true := by
  simp only [buildComplexFilter, streamRefsAgree]
  apply List.all_eq_true.mpr
  intro nd hnd
  simp only [List.mem_append] at hnd
  rcases hnd with (hnd | hnd) | hnd
  · rcases List.mem_flatMap.mp hnd with ⟨p, _, hin⟩
    simp only [sceneFilterNodes, List.mem_cons] at hin
    rcases hin with rfl | rfl | rfl | h
    · simp [streamRefsAgreeNode]
    · simp [streamRefsAgreeNode]
    · simp [streamRefsAgreeNode]
    · simp at h
  · simp only [List.mem_singleton] at hnd
    subst hnd
    simp [streamRefsAgreeNode]
  · rcases xfadeChain_output_vt t ds nd hnd with ⟨k, hk⟩
    simp [streamRefsAgreeNode, hk]

/-- C10: renderer inputs are registered strictly interleaved (scene 0's
image, scene 0's audio, scene 1's image, ...), so input `2i` is scene
`i`'s image and input `2i+1` its audio; and every per-scene filter node
consuming an input stream references exactly stream `2i:v` for its image
tag and `(2i+1):a` for its audio tag, agreeing with the registration
order. -/
theorem input_registration_interleaved :
    ∀ (env : Env) (scenes : List SceneData) (t : JsNum) (fps : ℕ),
      ((List.range (compiledValid (compileScenesToVideo env scenes t fps)).length).all
        (fun i =>
          decide ((compiledInputs (compileScenesToVideo env scenes t fps))[2 * i]? =
            ((compiledValid (compileScenesToVideo env scenes t fps))[i]?).map
              (fun d => d.imagePath)) &&
          decide ((compiledInputs (compileScenesToVideo env scenes t fps))[2 * i + 1]? =
            ((compiledValid (compileScenesToVideo env scenes t fps))[i]?).map
              (fun d => d.audioPath)))) = true ∧
      streamRefsAgree (compiledNodes (compileScenesToVideo env scenes t fps)) = true := by
  intro env scenes t fps
  by_cases h1 : scenes.isEmpty = true
  · constructor <;>
      simp [compileScenesToVideo, h1, compiledNodes, compiledValid,
        compiledInputs, streamRefsAgree]
  · by_cases h2 : (validScenes env scenes).isEmpty = true
    · constructor <;>
        simp [compileScenesToVideo, h1, h2, compiledNodes, compiledValid,
          compiledInputs, streamRefsAgree]
    · constructor
      · simp only [compileScenesToVideo, h1, h2, Bool.false_eq_true, if_false,
          compiledValid, compiledInputs]
        apply List.all_eq_true.mpr
        intro i _
        have hp := flatMap_pair_getElem (validScenes env scenes) i
        simp [hp.1, hp.2]
      · simp [compileScenesToVideo, h1, h2, compiledNodes,
          streamRefsAgree_build]

/-- C3, counterexample: the claim says a zero duration field yields the
fixed default `1.0`, but ffprobe reports durations as strings and the
string `"0"` is truthy in JavaScript, so `getAudioDuration` returns
`parseFloat("0") = 0`, not `1`. -/
theorem audio_duration_zero_field_counterexample :
    getAudioDuration (ProbeOutcome.ok (some "0")) = some 0 ∧
    getAudioDuration (ProbeOutcome.ok (some "0")) ≠ some 1 := by
  have h : getAudioDuration (ProbeOutcome.ok (some "0")) = some 0 := by
    simp [getAudioDuration, durationTruthy, jsParseFloat,
      (by decide : parseFloatScan "0" = some (false, 0, 0, 0))]
    decide
  refine ⟨h, ?_⟩
  rw [h]
  intro hc
  exact absurd (Option.some.inj hc) (by norm_num)

/-- C3, amended: on a thrown probe error, a missing duration field, or
an empty duration string, `getAudioDuration` returns exactly `1` and
never aborts; a present non-empty duration string is returned as
`parseFloat` of it (which may be `0` or NaN), not replaced by the
default. -/
theorem audio_duration_default_policy :
    getAudioDuration ProbeOutcome.err = some 1 ∧
    getAudioDuration (ProbeOutcome.ok none) = some 1 ∧
    getAudioDuration (ProbeOutcome.ok (some "")) = some 1 ∧
    ∀ s : String, s ≠ "" → getAudioDuration (ProbeOutcome.ok (some s)) = jsParseFloat s := by
  refine ⟨rfl, rfl, rfl, ?_⟩
  intro s hs
  have h : s.isEmpty = false := by
    cases hh : s.isEmpty
    · rfl
    · exact absurd ((String.isEmpty_iff s).mp hh) hs
  simp [getAudioDuration, durationTruthy, h, Option.getD]

/-- C3, witness for the amended theorem at the probe string `"2.5"`. -/
theorem audio_duration_default_policy_witness :
    getAudioDuration (ProbeOutcome.ok (some "2.5")) = jsParseFloat "2.5" :=
  audio_duration_default_policy.2.2.2 "2.5" (by decide)

end StoryReel
